import Mathlib

/-!
# Network record manager (`src/server/handler_network.go`)

A shallow embedding of the five HTTP handlers of the network record manager
(`CreateNetworkHandler`, `ListNetworkHandler`, `GetNetworkHandler`,
`DeleteNetworkHandler`, `UpdateNetworkHandler`) together with the
collaborators they call: the record type, the document store session, the
response writers and the query-parameter reader.

Every handler is a function from the request and the store contents to a
`Result`: what was written to the client, the store contents afterwards and
the store calls that were issued, in order.  Store calls can fail; the error a
call fails with (if any) is an explicit argument of the handler.
-/

namespace Vortex

/-! ## Go values -/

/-- Raw bytes of a `bson.ObjectId` (a Go `string`); its `len` is the number of bytes. -/
abbrev ObjectId := List Nat

/-- A point in time (the value behind the `*time.Time` of `timeutils.Now()`). -/
abbrev Time := Nat

/-- A Go `error` value.  `ErrNotFound` is the sentinel `mgo.ErrNotFound`; any other error
carries its message. -/
inductive GoError where
  | ErrNotFound
  | other (msg : String)
deriving DecidableEq, Repr

/-- The method `Error()` of an error: `mgo.ErrNotFound` reads "not found". -/
def GoError.Error : GoError → String
  | .ErrNotFound => "not found"
  | .other msg => msg

/-- Go `int` arithmetic is 64-bit two's complement: the value an exact result wraps to. -/
def wrapInt64 (x : Int) : Int := (x + 2 ^ 63) % 2 ^ 64 - 2 ^ 63

/-- The decimal rendering `strconv.Itoa`. -/
def Itoa (i : Int) : String := toString i

/-! ## The record type -/

/-- Modelled from the spec: the record type `entity.Network` is declared outside the files
under `src/`.  The fields are those of the data model (`id`, `displayName`, `node`,
`interface`, `bridgeName`, `createdAt`); `Other` stands for any further client-supplied
fields, which the handlers never inspect.  `CreatedAt` is a pointer, `none` is `nil`. -/
structure Network where
  ID : ObjectId
  DisplayName : String
  BridgeName : String
  Node : String
  Interface : String
  CreatedAt : Option Time
  Other : List (String × String)
deriving DecidableEq, Repr

/-- The zero value `entity.Network{}`. -/
def Network.zero : Network :=
  { ID := [], DisplayName := "", BridgeName := "", Node := "", Interface := "",
    CreatedAt := none, Other := [] }

/-- Modelled from the spec: `ActionResponse` is declared in a file of package `server` outside
`src/`; it is the envelope with an error flag and a message. -/
structure ActionResponse where
  Error : Bool
  Message : String
deriving DecidableEq, Repr

/-! ## Responses -/

/-- What a handler writes as the response body. -/
inductive Body where
  | errorMessage (msg : String)
  | action (a : ActionResponse)
  | network (n : Network)
  | networks (ns : List Network)
deriving DecidableEq, Repr

/-- An HTTP response: status code, the headers added by the handler, body. -/
structure Response where
  status : Nat
  headers : List (String × String)
  body : Body
deriving DecidableEq, Repr

/-- Modelled from the spec: `response.BadRequest` (package `net/http` of this repository, outside
`src/`) answers 400 with the message of the error. -/
def response.BadRequest (err : GoError) : Response :=
  { status := 400, headers := [], body := .errorMessage err.Error }

/-- Modelled from the spec: `response.NotFound` answers 404 with the message of the error. -/
def response.NotFound (err : GoError) : Response :=
  { status := 404, headers := [], body := .errorMessage err.Error }

/-- Modelled from the spec: `response.Conflict` answers 409 with the message of the error. -/
def response.Conflict (err : GoError) : Response :=
  { status := 409, headers := [], body := .errorMessage err.Error }

/-- Modelled from the spec: `response.InternalServerError` answers 500 with the message of the
error. -/
def response.InternalServerError (err : GoError) : Response :=
  { status := 500, headers := [], body := .errorMessage err.Error }

/-- The method `resp.WriteEntity`: status 200, the headers added so far, the entity as body. -/
def WriteEntity (headers : List (String × String)) (entity : Body) : Response :=
  { status := 200, headers := headers, body := entity }

/-! ## The document store -/

/-- A value in a `bson.M` selector. -/
inductive BsonValue where
  | str (s : String)
  | oid (id : ObjectId)
deriving DecidableEq, Repr

/-- A `bson.M` selector: field names with the value each must equal. -/
abbrev BsonM := List (String × BsonValue)

/-- The value a stored document holds under a field name of the collection. -/
def Network.field (n : Network) (key : String) : Option BsonValue :=
  if key = "_id" then some (.oid n.ID)
  else if key = "displayName" then some (.str n.DisplayName)
  else if key = "bridgeName" then some (.str n.BridgeName)
  else if key = "node" then some (.str n.Node)
  else if key = "interface" then some (.str n.Interface)
  else none

/-- A document matches a selector when it holds the selector's value under every field. -/
def BsonM.matches (q : BsonM) (n : Network) : Bool :=
  q.all (fun kv => decide (n.field kv.1 = some kv.2))

/-- Contents of the network collection, in insertion order. -/
abbrev Store := List Network

/-- A call issued against the store session. -/
inductive StoreCall where
  | FindOne (q : BsonM)
  | Insert (doc : Network)
  | FindSortSkipLimitAll (q : BsonM) (sort : String) (skip limit : Int)
  | Count (q : BsonM)
  | FindIdOne (id : ObjectId)
  | Remove (key : String) (value : ObjectId)
  | UpdateById (id : ObjectId) (update : Network)
deriving DecidableEq, Repr

/-- Byte-wise (lexicographic) order of identifiers, the order of an ascending sort on `_id`. -/
def ObjectId.le : ObjectId → ObjectId → Bool
  | [], _ => true
  | _ :: _, [] => false
  | a :: as, b :: bs => if a < b then true else if b < a then false else ObjectId.le as bs

/-- The documents in ascending order of `_id`. -/
def sortById (s : Store) : List Network :=
  s.insertionSort (fun a b => ObjectId.le a.ID b.ID = true)

/-- Modelled from the spec: `session.FindOne(collection, selector, &out)` of the store adapter
(an outside package).  On success the first matching document is written to `out`; when no
document matches the call returns `mgo.ErrNotFound` and leaves `out` as it was.  `fault` is the
error the call fails with for a reason of the store itself, if any. -/
def FindOne (fault : Option GoError) (s : Store) (q : BsonM) (out : Network) :
    Option GoError × Network :=
  match fault with
  | some e => (some e, out)
  | none =>
    match s.find? q.matches with
    | some doc => (none, doc)
    | none => (some .ErrNotFound, out)

/-- Modelled from the spec: `c.FindId(id).One(&out)`; as `FindOne` with the selector on `_id`. -/
def FindIdOne (fault : Option GoError) (s : Store) (id : ObjectId) (out : Network) :
    Option GoError × Network :=
  FindOne fault s [("_id", .oid id)] out

/-- Modelled from the spec: `session.Insert(collection, &doc)`.  The store keeps `_id` unique: a
document whose `_id` is already present is refused with a duplicate-key error; otherwise the
document is appended. -/
def Insert (fault : Option GoError) (s : Store) (doc : Network) : Option GoError × Store :=
  match fault with
  | some e => (some e, s)
  | none =>
    if s.any (fun d => decide (d.ID = doc.ID)) then
      (some (.other "E11000 duplicate key error"), s)
    else (none, s ++ [doc])

/-- Removes the first document satisfying `p`. -/
def removeFirst (p : Network → Bool) : Store → Store
  | [] => []
  | d :: ds => if p d then ds else d :: removeFirst p ds

/-- Modelled from the spec: `session.Remove(collection, "_id", id)` removes one document with
that `_id`, and returns `mgo.ErrNotFound` when there is none. -/
def Remove (fault : Option GoError) (s : Store) (id : ObjectId) : Option GoError × Store :=
  match fault with
  | some e => (some e, s)
  | none =>
    if s.any (fun d => decide (d.ID = id)) then (none, removeFirst (fun d => decide (d.ID = id)) s)
    else (some .ErrNotFound, s)

/-- Replaces the first document whose `_id` is `id` by `doc`. -/
def replaceFirst (id : ObjectId) (doc : Network) : Store → Store
  | [] => []
  | d :: ds => if d.ID = id then doc :: ds else d :: replaceFirst id doc ds

/-- Modelled from the spec: `session.UpdateById(collection, id, update)` replaces the stored
document by the update document and keeps its `_id` (an empty `ID` is left out of the update
document, an `ID` different from `id` is refused by the store); `mgo.ErrNotFound` when no
document has that `_id`. -/
def UpdateById (fault : Option GoError) (s : Store) (id : ObjectId) (update : Network) :
    Option GoError × Store :=
  match fault with
  | some e => (some e, s)
  | none =>
    if s.any (fun d => decide (d.ID = id)) then
      if update.ID = [] ∨ update.ID = id then
        (none, replaceFirst id { update with ID := id } s)
      else (some (.other "the _id field cannot be changed"), s)
    else (some .ErrNotFound, s)

/-- Modelled from the spec: `session.Count(collection, bson.M{})`, the number of documents; on
failure the count is 0. -/
def Count (fault : Option GoError) (s : Store) : Int × Option GoError :=
  match fault with
  | some e => (0, some e)
  | none => ((s.length : Int), none)

/-- Modelled from the spec: `c.Find(bson.M{}).Sort("_id").Skip(skip).Limit(limit).All(&out)`: the
documents in ascending `_id` order, the first `skip` dropped, at most `limit` kept.  Outside the
range the spec speaks of, the store refuses a negative `skip`, takes a `limit` of 0 as no limit and
a negative `limit` by its absolute value. -/
def FindSortSkipLimitAll (fault : Option GoError) (s : Store) (skip limit : Int)
    (out : List Network) : Option GoError × List Network :=
  match fault with
  | some e => (some e, out)
  | none =>
    if skip < 0 then (some (.other "skip value must be non-negative"), out)
    else
      let rest := (sortById s).drop skip.toNat
      (none, if limit = 0 then rest else rest.take limit.natAbs)

/-! ## Request parameters -/

/-- A query parameter of the request URL as the reader sees it. -/
inductive QueryValue where
  | absent
  | integer (v : Int)
  | malformed (err : GoError)
deriving DecidableEq, Repr

/-- Modelled from the spec: `query.Int(key, default)` (package `net/http/query` of this
repository, outside `src/`): the default when the parameter is absent, its value when it is an
integer, an error when it is not an integer. -/
def query.Int (v : QueryValue) (defaultValue : Int) : Int × Option GoError :=
  match v with
  | .absent => (defaultValue, none)
  | .integer i => (i, none)
  | .malformed err => (defaultValue, some err)

/-- Value of one hexadecimal digit. -/
def fromHexChar (c : Char) : Option Nat :=
  if '0' ≤ c ∧ c ≤ '9' then some (c.toNat - 48)
  else if 'a' ≤ c ∧ c ≤ 'f' then some (c.toNat - 87)
  else if 'A' ≤ c ∧ c ≤ 'F' then some (c.toNat - 55)
  else none

/-- The bytes written by a string of hexadecimal digits (`hex.DecodeString`). -/
def hexDecode : List Char → Option (List Nat)
  | [] => some []
  | [_] => none
  | a :: b :: rest =>
    match fromHexChar a, fromHexChar b, hexDecode rest with
    | some x, some y, some r => some ((16 * x + y) :: r)
    | _, _, _ => none

/-- The conversion `bson.ObjectIdHex`: the identifier written by 24 hexadecimal digits; `none`
stands for the panic on any other input. -/
def ObjectIdHex (s : String) : Option ObjectId :=
  match hexDecode s.data with
  | some d => if d.length = 12 then some d else none
  | none => none

/-! ## Results -/

/-- How a handler ended: it wrote a response, or it panicked. -/
inductive Outcome where
  | wrote (r : Response)
  | panicked (msg : String)
deriving DecidableEq, Repr

/-- What running a handler amounts to: its outcome, the store contents afterwards, and the store
calls it issued, in order. -/
structure Result where
  outcome : Outcome
  store : Store
  calls : List StoreCall
deriving DecidableEq, Repr

/-! ## CreateNetworkHandler -/

/-- The errors the four store calls of `CreateNetworkHandler` fail with, if any. -/
structure CreateFaults where
  findDisplayName : Option GoError
  findInterface : Option GoError
  findBridgeName : Option GoError
  insert : Option GoError
deriving DecidableEq, Repr

/-- The handler `CreateNetworkHandler`.  `body` is the outcome of `req.ReadEntity`, `newId` the
value of `bson.NewObjectId()` and `now` the value of `timeutils.Now()`. -/
def CreateNetworkHandler (f : CreateFaults) (newId : ObjectId) (now : Time) (store : Store)
    (body : Except GoError Network) : Result :=
  match body with
  | .error err => ⟨.wrote (response.BadRequest err), store, []⟩
  | .ok network =>
    -- Check whether this displayname has been used
    let q1 : BsonM := [("displayName", .str network.DisplayName)]
    let r1 := FindOne f.findDisplayName store q1 Network.zero
    let calls1 := [StoreCall.FindOne q1]
    match (match r1.1 with
           | some err => if err.Error ≠ GoError.ErrNotFound.Error then some err else none
           | none => none) with
    | some err => ⟨.wrote (response.InternalServerError err), store, calls1⟩
    | none =>
    if r1.2.ID.length > 1 then
      ⟨.wrote (response.Conflict
        (.other ("displayName: " ++ network.DisplayName ++ " already existed"))), store, calls1⟩
    else
    -- Check whether this Interface has been used
    let q2 : BsonM := [("node", .str network.Node), ("interface", .str network.Interface)]
    let r2 := FindOne f.findInterface store q2 Network.zero
    let calls2 := calls1 ++ [StoreCall.FindOne q2]
    match (match r2.1 with
           | some err => if err.Error ≠ GoError.ErrNotFound.Error then some err else none
           | none => none) with
    | some err => ⟨.wrote (response.InternalServerError err), store, calls2⟩
    | none =>
    if r2.2.ID.length > 1 then
      ⟨.wrote (response.Conflict
        (.other ("interface " ++ network.Interface ++ " on the Node " ++ network.Node ++
          " has already be used"))), store, calls2⟩
    else
    -- Check whether this bridge has been used
    let q3 : BsonM := [("bridgeName", .str network.BridgeName)]
    let r3 := FindOne f.findBridgeName store q3 Network.zero
    let calls3 := calls2 ++ [StoreCall.FindOne q3]
    match (match r3.1 with
           | some err => if err.Error ≠ GoError.ErrNotFound.Error then some err else none
           | none => none) with
    | some err => ⟨.wrote (response.InternalServerError err), store, calls3⟩
    | none =>
    if r3.2.ID.length > 1 then
      ⟨.wrote (response.Conflict
        (.other ("bridgeName: " ++ network.BridgeName ++ " already existed"))), store, calls3⟩
    else
    let network1 := { network with ID := newId }
    let network2 := { network1 with CreatedAt := some now }
    let r4 := Insert f.insert store network2
    let calls4 := calls3 ++ [StoreCall.Insert network2]
    match r4.1 with
    | some err => ⟨.wrote (response.InternalServerError err), r4.2, calls4⟩
    | none =>
      ⟨.wrote (WriteEntity [] (.action { Error := false, Message := "Create success" })),
        r4.2, calls4⟩

/-! ## Floating point -/

/-- The integer nearest to `x`, ties going to the even one. -/
def roundHalfEven (x : ℚ) : ℤ :=
  let fl := ⌊x⌋
  let r := x - fl
  if r < 1 / 2 then fl else if 1 / 2 < r then fl + 1 else if fl % 2 = 0 then fl else fl + 1

/-- The finite `float64` nearest to the rational `q` (53 significant bits, ties to even).  The
exponent range is not bounded: no quotient of two 64-bit integers leaves the normal range. -/
def roundF64 (q : ℚ) : ℚ :=
  if q = 0 then 0
  else
    let ulp : ℚ := 2 ^ (Int.log 2 |q| - 52)
    (roundHalfEven (q / ulp) : ℚ) * ulp

/-- A `float64` value.  The sign of a zero is not kept: the only zero divisor in the program is
the conversion of the integer 0, which is positive. -/
inductive Float64 where
  | finite (q : ℚ)
  | inf (negative : Bool)
  | nan
deriving DecidableEq

/-- The conversion `float64(i)` of an integer. -/
def float64 (i : Int) : Float64 := .finite (roundF64 i)

/-- The division of two `float64` values. -/
def Float64.div : Float64 → Float64 → Float64
  | .finite a, .finite b =>
    if b = 0 then (if a = 0 then .nan else .inf (decide (a < 0)))
    else .finite (roundF64 (a / b))
  | .finite _, .inf _ => .finite 0
  | .inf n, .finite b => .inf (xor n (decide (b < 0)))
  | .inf _, .inf _ => .nan
  | .nan, _ => .nan
  | _, .nan => .nan

/-- The function `math.Ceil`. -/
def math.Ceil : Float64 → Float64
  | .finite q => .finite (⌈q⌉ : ℤ)
  | .inf n => .inf n
  | .nan => .nan

/-- The conversion `int(x)` of a `float64`: the fraction is discarded.  For a value that no `int`
represents the result is implementation-dependent; it is the smallest `int` on amd64. -/
def int (x : Float64) : Int :=
  match x with
  | .finite q =>
    let z : Int := if 0 ≤ q then ⌊q⌋ else ⌈q⌉
    if -2 ^ 63 ≤ z ∧ z < 2 ^ 63 then z else -2 ^ 63
  | .inf _ => -2 ^ 63
  | .nan => -2 ^ 63

/-! ## ListNetworkHandler -/

/-- The errors the two store calls of `ListNetworkHandler` fail with, if any. -/
structure ListFaults where
  all : Option GoError
  count : Option GoError
deriving DecidableEq, Repr

/-- The handler `ListNetworkHandler`.  `pageParam` and `pageSizeParam` are the query parameters
`page` and `page_size` of the request. -/
def ListNetworkHandler (f : ListFaults) (store : Store) (pageParam pageSizeParam : QueryValue) :
    Result :=
  let pageSize0 : Int := 10
  let p := query.Int pageParam 1
  match p.2 with
  | some err => ⟨.wrote (response.BadRequest err), store, []⟩
  | none =>
  let page := p.1
  let ps := query.Int pageSizeParam pageSize0
  match ps.2 with
  | some err => ⟨.wrote (response.BadRequest err), store, []⟩
  | none =>
  let pageSize := ps.1
  let skip := wrapInt64 (wrapInt64 (page - 1) * pageSize)
  let q := FindSortSkipLimitAll f.all store skip pageSize []
  let calls1 := [StoreCall.FindSortSkipLimitAll [] "_id" skip pageSize]
  match q.1 with
  | some err =>
    if err = GoError.ErrNotFound then ⟨.wrote (response.NotFound err), store, calls1⟩
    else ⟨.wrote (response.InternalServerError err), store, calls1⟩
  | none =>
  let c := Count f.count store
  let calls2 := calls1 ++ [StoreCall.Count []]
  let totalPages := int (math.Ceil ((float64 c.1).div (float64 pageSize)))
  ⟨.wrote (WriteEntity [("X-Total-Count", Itoa c.1), ("X-Total-Pages", Itoa totalPages)]
    (.networks q.2)), store, calls2⟩

/-! ## GetNetworkHandler -/

/-- The handler `GetNetworkHandler`.  `id` is the path parameter, `fault` the error the store
call fails with, if any. -/
def GetNetworkHandler (fault : Option GoError) (store : Store) (id : String) : Result :=
  match ObjectIdHex id with
  | none => ⟨.panicked ("invalid input to ObjectIdHex: " ++ id), store, []⟩
  | some oid =>
    let r := FindIdOne fault store oid Network.zero
    let calls := [StoreCall.FindIdOne oid]
    match r.1 with
    | some err =>
      if err = GoError.ErrNotFound then ⟨.wrote (response.NotFound err), store, calls⟩
      else ⟨.wrote (response.InternalServerError err), store, calls⟩
    | none => ⟨.wrote (WriteEntity [] (.network r.2)), store, calls⟩

/-! ## DeleteNetworkHandler -/

/-- The errors the two store calls of `DeleteNetworkHandler` fail with, if any. -/
structure DeleteFaults where
  findOne : Option GoError
  remove : Option GoError
deriving DecidableEq, Repr

/-- The handler `DeleteNetworkHandler`.  `id` is the path parameter. -/
def DeleteNetworkHandler (f : DeleteFaults) (store : Store) (id : String) : Result :=
  match ObjectIdHex id with
  | none => ⟨.panicked ("invalid input to ObjectIdHex: " ++ id), store, []⟩
  | some oid =>
    let q : BsonM := [("_id", .oid oid)]
    let r := FindOne f.findOne store q Network.zero
    let calls1 := [StoreCall.FindOne q]
    match r.1 with
    | some err =>
      if err.Error = GoError.ErrNotFound.Error then
        ⟨.wrote (response.NotFound (.other ("the network: " ++ id ++ " doesn\x27t exist"))),
          store, calls1⟩
      else ⟨.wrote (response.InternalServerError err), store, calls1⟩
    | none =>
      let network := r.2
      let r2 := Remove f.remove store network.ID
      let calls2 := calls1 ++ [StoreCall.Remove "_id" network.ID]
      match r2.1 with
      | some err => ⟨.wrote (response.InternalServerError err), r2.2, calls2⟩
      | none =>
        ⟨.wrote (WriteEntity [] (.action { Error := false, Message := "Delete success" })),
          r2.2, calls2⟩

/-! ## UpdateNetworkHandler -/

/-- The errors the two store calls of `UpdateNetworkHandler` fail with, if any. -/
structure UpdateFaults where
  findOne : Option GoError
  update : Option GoError
deriving DecidableEq, Repr

/-- The function `reflect.DeepEqual` on two records: strings, identifiers and lists are compared
by content and a pointer by what it points to, which is equality of the records. -/
def DeepEqual (a b : Network) : Bool := decide (a = b)

/-- The handler `UpdateNetworkHandler`.  `id` is the path parameter, `body` the outcome of
`req.ReadEntity`. -/
def UpdateNetworkHandler (f : UpdateFaults) (store : Store) (id : String)
    (body : Except GoError Network) : Result :=
  match ObjectIdHex id with
  | none => ⟨.panicked ("invalid input to ObjectIdHex: " ++ id), store, []⟩
  | some oid =>
    let q : BsonM := [("_id", .oid oid)]
    let r := FindOne f.findOne store q Network.zero
    let calls1 := [StoreCall.FindOne q]
    match r.1 with
    | some err =>
      if err.Error = GoError.ErrNotFound.Error then
        ⟨.wrote (response.NotFound (.other ("the network: " ++ id ++ " doesn\x27t exist"))),
          store, calls1⟩
      else ⟨.wrote (response.InternalServerError err), store, calls1⟩
    | none =>
      let network := r.2
      match body with
      | .error err => ⟨.wrote (response.BadRequest err), store, calls1⟩
      | .ok updatedNetwork =>
        let checkNetwork := { Network.zero with DisplayName := updatedNetwork.DisplayName }
        if ¬ DeepEqual updatedNetwork checkNetwork then
          ⟨.wrote (response.BadRequest (.other "only DisplayName can be changed")), store, calls1⟩
        else
          let r2 := UpdateById f.update store network.ID updatedNetwork
          let calls2 := calls1 ++ [StoreCall.UpdateById network.ID updatedNetwork]
          match r2.1 with
          | some err =>
            if err = GoError.ErrNotFound then ⟨.wrote (response.NotFound err), r2.2, calls2⟩
            else ⟨.wrote (response.InternalServerError err), r2.2, calls2⟩
          | none => ⟨.wrote (WriteEntity [] (.network updatedNetwork)), r2.2, calls2⟩

/-! ## Sequences of calls -/

/-- One call of the API, with everything the handler takes besides the store contents. -/
inductive Call where
  | Create (f : CreateFaults) (newId : ObjectId) (now : Time) (body : Except GoError Network)
  | List (f : ListFaults) (pageParam pageSizeParam : QueryValue)
  | Get (fault : Option GoError) (id : String)
  | Update (f : UpdateFaults) (id : String) (body : Except GoError Network)
  | Delete (f : DeleteFaults) (id : String)

/-- Runs the handler a call is routed to. -/
def Call.run (store : Store) : Call → Result
  | .Create f newId now body => CreateNetworkHandler f newId now store body
  | .List f pageParam pageSizeParam => ListNetworkHandler f store pageParam pageSizeParam
  | .Get fault id => GetNetworkHandler fault store id
  | .Update f id body => UpdateNetworkHandler f store id body
  | .Delete f id => DeleteNetworkHandler f store id

/-- The store contents after each call of a sequence, the contents before the first call
included. -/
def observations (store : Store) : List Call → List Store
  | [] => [store]
  | c :: cs => store :: observations (c.run store).store cs

/-- No two records of the store share `displayName`, `bridgeName` or the pair
(`node`, `interface`). -/
abbrev Unique (s : Store) : Prop :=
  s.Pairwise (fun a b => a.DisplayName ≠ b.DisplayName ∧ a.BridgeName ≠ b.BridgeName ∧
    ¬ (a.Node = b.Node ∧ a.Interface = b.Interface))


/-! ## Vocabulary of the properties -/

/-! ### Store states -/

/-- Every stored record carries a 12-byte identifier. -/
abbrev validIds (s : Store) : Prop := ∀ r ∈ s, r.ID.length = 12

/-- The store holds at most one record under each identifier (the store keeps `_id` unique). -/
abbrev uniqueIds (s : Store) : Prop := (s.map Network.ID).Nodup

/-- No store call of `CreateNetworkHandler` fails. -/
def CreateFaults.none : CreateFaults := ⟨.none, .none, .none, .none⟩

/-- No store call of `DeleteNetworkHandler` fails. -/
def DeleteFaults.none : DeleteFaults := ⟨.none, .none⟩

/-- No store call of `UpdateNetworkHandler` fails. -/
def UpdateFaults.none : UpdateFaults := ⟨.none, .none⟩

/-- No store call of `ListNetworkHandler` fails. -/
def ListFaults.none : ListFaults := ⟨.none, .none⟩

/-! ### Creation -/

/-- Some stored record has the input's `displayName`. -/
abbrev displayNameTaken (s : Store) (n : Network) : Prop :=
  ∃ r ∈ s, r.DisplayName = n.DisplayName

/-- Some stored record has both the input's `node` and the input's `interface`. -/
abbrev interfaceTaken (s : Store) (n : Network) : Prop :=
  ∃ r ∈ s, r.Node = n.Node ∧ r.Interface = n.Interface

/-- Some stored record has the input's `bridgeName`. -/
abbrev bridgeNameTaken (s : Store) (n : Network) : Prop :=
  ∃ r ∈ s, r.BridgeName = n.BridgeName

/-- The record `CreateNetworkHandler` hands to the insert: the input with the generated
identifier and the current time. -/
def created (network : Network) (newId : ObjectId) (now : Time) : Network :=
  { network with ID := newId, CreatedAt := some now }

/-- The success envelope of `CreateNetworkHandler`. -/
def createSuccess : Response :=
  WriteEntity [] (.action { Error := false, Message := "Create success" })

/-! ### Deletion and update -/

/-- The answer of `UpdateNetworkHandler` to a patch that fails the shape check. -/
def onlyDisplayName : Response :=
  response.BadRequest (.other "only DisplayName can be changed")

/-- Some field of the patch other than `displayName` is not the zero value. -/
abbrev otherFieldSet (patch : Network) : Prop :=
  patch.ID ≠ [] ∨ patch.BridgeName ≠ "" ∨ patch.Node ≠ "" ∨ patch.Interface ≠ "" ∨
    patch.CreatedAt ≠ none ∨ patch.Other ≠ []

/-- A patch that carries a `displayName` and nothing else. -/
def rename (displayName : String) : Network :=
  { Network.zero with DisplayName := displayName }

/-! ### Reading an outcome -/

/-- The status code of a written response; a panic writes none. -/
def Outcome.status : Outcome → Option Nat
  | .wrote r => some r.status
  | .panicked _ => none

/-- The header of a written response under a key, if the handler added one. -/
def Outcome.header (o : Outcome) (key : String) : Option String :=
  match o with
  | .wrote r => (r.headers.find? (fun kv => kv.1 == key)).map (fun kv => kv.2)
  | .panicked _ => none

/-- An example identifier. -/
def idA : ObjectId := [90, 200, 17, 4, 0, 0, 0, 0, 0, 0, 0, 1]

/-- A second example identifier. -/
def idB : ObjectId := [90, 200, 17, 4, 0, 0, 0, 0, 0, 0, 0, 2]

/-- The hexadecimal form of `idA`, as it appears in a request path. -/
def hexA : String := "5ac811040000000000000001"

/-- An input record as a client posts it. -/
def inputA : Network :=
  { ID := [], DisplayName := "a", BridgeName := "br0", Node := "n1", Interface := "eth0",
    CreatedAt := none, Other := [] }

/-- A second input record, sharing no key with `inputA`. -/
def inputB : Network :=
  { ID := [], DisplayName := "b", BridgeName := "br1", Node := "n2", Interface := "eth1",
    CreatedAt := none, Other := [] }

/-- The record stored for `inputA`. -/
def recA : Network := created inputA idA 100

/-- The record stored for `inputB`. -/
def recB : Network := created inputB idB 200

/-- Three calls: two creations of records sharing no key, then an update of the first record
with a patch carrying the `displayName` of the second. -/
def renameToTaken : List Call :=
  [ .Create CreateFaults.none idA 100 (.ok inputA),
    .Create CreateFaults.none idB 200 (.ok inputB),
    .Update UpdateFaults.none hexA (.ok (rename "b")) ]

/-- The last `n` digits of a number in base 256, most significant first. -/
def bytesOfNat : Nat → Nat → List Nat
  | 0, _ => []
  | n + 1, i => bytesOfNat n (i / 256) ++ [i % 256]

/-- The 12-byte identifier that writes a number in base 256. -/
def objectIdOfNat (i : Nat) : ObjectId := bytesOfNat 12 i

/-- The record of number `i` of a large store; its identifier and its keys carry the number. -/
def bigRecord (i : Nat) : Network :=
  { ID := objectIdOfNat i, DisplayName := "net" ++ toString i, BridgeName := "br" ++ toString i,
    Node := "node" ++ toString i, Interface := "eth0", CreatedAt := some i, Other := [] }

/-- A store of `2 ^ 53 + 1` records. -/
def bigStore : Store := (List.range (2 ^ 53 + 1)).map bigRecord

/-! ## Store lemmas -/

theorem matches_displayName (x : String) (n : Network) :
    BsonM.matches [("displayName", .str x)] n = decide (n.DisplayName = x) := by
  simp [BsonM.matches, Network.field]

theorem matches_bridgeName (x : String) (n : Network) :
    BsonM.matches [("bridgeName", .str x)] n = decide (n.BridgeName = x) := by
  simp [BsonM.matches, Network.field]

theorem matches_nodeInterface (x y : String) (n : Network) :
    BsonM.matches [("node", .str x), ("interface", .str y)] n =
      decide (n.Node = x ∧ n.Interface = y) := by
  simp [BsonM.matches, Network.field]

theorem matches_id (x : ObjectId) (n : Network) :
    BsonM.matches [("_id", .oid x)] n = decide (n.ID = x) := by
  simp [BsonM.matches, Network.field]

/-! ## CreateNetworkHandler: the uniqueness probes -/

theorem probe_clear (s : Store) (q : BsonM) :
    (match (FindOne none s q Network.zero).1 with
      | some err => if err.Error ≠ GoError.ErrNotFound.Error then some err else none
      | none => none) = none := by
  unfold FindOne
  cases s.find? q.matches <;> simp [GoError.Error]

theorem probe_hit (s : Store) (q : BsonM) (hid : validIds s) :
    (FindOne none s q Network.zero).2.ID.length > 1 ↔ ∃ r ∈ s, q.matches r = true := by
  unfold FindOne
  cases h : s.find? q.matches with
  | none =>
    simp only [Network.zero, List.length_nil]
    rw [List.find?_eq_none] at h
    constructor
    · intro h0; omega
    · rintro ⟨r, hr, hm⟩; exact absurd hm (h r hr)
  | some doc =>
    have hm := List.find?_some h
    have hmem := List.mem_of_find?_eq_some h
    have := hid doc hmem
    simp only
    constructor
    · intro _; exact ⟨doc, hmem, hm⟩
    · intro _; omega

theorem probe_displayName (s : Store) (n : Network) (hid : validIds s) :
    (FindOne none s [("displayName", .str n.DisplayName)] Network.zero).2.ID.length > 1 ↔
      displayNameTaken s n := by
  rw [probe_hit _ _ hid]; simp [matches_displayName]

theorem probe_interface (s : Store) (n : Network) (hid : validIds s) :
    (FindOne none s [("node", .str n.Node), ("interface", .str n.Interface)]
      Network.zero).2.ID.length > 1 ↔ interfaceTaken s n := by
  rw [probe_hit _ _ hid]; simp [matches_nodeInterface]

theorem probe_bridgeName (s : Store) (n : Network) (hid : validIds s) :
    (FindOne none s [("bridgeName", .str n.BridgeName)] Network.zero).2.ID.length > 1 ↔
      bridgeNameTaken s n := by
  rw [probe_hit _ _ hid]; simp [matches_bridgeName]

/-- What `CreateNetworkHandler` does when the store answers the three probes, case by case. -/
theorem create_cases (e : Option GoError) (newId : ObjectId) (now : Time) (store : Store)
    (network : Network) (hid : validIds store) :
    let res := CreateNetworkHandler ⟨none, none, none, e⟩ newId now store (.ok network)
    (displayNameTaken store network →
      res.outcome = .wrote (response.Conflict
        (.other ("displayName: " ++ network.DisplayName ++ " already existed"))) ∧
      res.store = store) ∧
    (¬ displayNameTaken store network → interfaceTaken store network →
      res.outcome = .wrote (response.Conflict
        (.other ("interface " ++ network.Interface ++ " on the Node " ++ network.Node ++
          " has already be used"))) ∧ res.store = store) ∧
    (¬ displayNameTaken store network → ¬ interfaceTaken store network →
      bridgeNameTaken store network →
      res.outcome = .wrote (response.Conflict
        (.other ("bridgeName: " ++ network.BridgeName ++ " already existed"))) ∧
      res.store = store) ∧
    (¬ displayNameTaken store network → ¬ interfaceTaken store network →
      ¬ bridgeNameTaken store network →
      res.calls.getLast? = some (StoreCall.Insert (created network newId now)) ∧
      res.store = (Insert e store (created network newId now)).2 ∧
      res.outcome = match (Insert e store (created network newId now)).1 with
        | some err => .wrote (response.InternalServerError err)
        | none => .wrote createSuccess) := by
  intro res
  have p1 := probe_displayName store network hid
  have p2 := probe_interface store network hid
  have p3 := probe_bridgeName store network hid
  refine ⟨fun t1 => ?_, fun t1 t2 => ?_, fun t1 t2 t3 => ?_, fun t1 t2 t3 => ?_⟩
  · simp only [res, CreateNetworkHandler, probe_clear]
    rw [if_pos (p1.2 t1)]; exact ⟨rfl, rfl⟩
  · simp only [res, CreateNetworkHandler, probe_clear]
    rw [if_neg (fun h => t1 (p1.1 h)), if_pos (p2.2 t2)]; exact ⟨rfl, rfl⟩
  · simp only [res, CreateNetworkHandler, probe_clear]
    rw [if_neg (fun h => t1 (p1.1 h)), if_neg (fun h => t2 (p2.1 h)), if_pos (p3.2 t3)]
    exact ⟨rfl, rfl⟩
  · simp only [res, CreateNetworkHandler, probe_clear]
    rw [if_neg (fun h => t1 (p1.1 h)), if_neg (fun h => t2 (p2.1 h)),
      if_neg (fun h => t3 (p3.1 h))]
    simp only [created, createSuccess]
    generalize Insert e store (Network.mk newId _ _ _ _ _ _) = r
    cases r.1 <;> simp

theorem insert_ok (s : Store) (doc : Network) (hfresh : ∀ r ∈ s, r.ID ≠ doc.ID) :
    Insert none s doc = (none, s ++ [doc]) := by
  unfold Insert
  have : (s.any fun d => decide (d.ID = doc.ID)) = false := by
    simpa [List.any_eq_false] using hfresh
  simp [this]

theorem insert_store_of_error (e : Option GoError) (s : Store) (doc : Network) (err : GoError)
    (h : (Insert e s doc).1 = some err) : (Insert e s doc).2 = s := by
  unfold Insert at h ⊢
  cases e with
  | some e0 => rfl
  | none =>
    simp only at h ⊢
    split
    · rfl
    · rename_i hany; rw [if_neg hany] at h; cases h

theorem insert_store_of_ok (e : Option GoError) (s : Store) (doc : Network)
    (h : (Insert e s doc).1 = none) : (Insert e s doc).2 = s ++ [doc] := by
  unfold Insert at h ⊢
  cases e with
  | some e0 => simp at h
  | none =>
    simp only at h ⊢
    split
    · rename_i hany; rw [if_pos hany] at h; cases h
    · rfl

theorem create_success_insert (f : CreateFaults) (newId : ObjectId) (now : Time) (store : Store)
    (network : Network)
    (h : (CreateNetworkHandler f newId now store (.ok network)).outcome = .wrote createSuccess) :
    (CreateNetworkHandler f newId now store (.ok network)).store =
      store ++ [created network newId now] := by
  unfold CreateNetworkHandler at h ⊢
  simp only at h ⊢
  split at h
  · simp [response.InternalServerError, createSuccess, WriteEntity] at h
  rename_i h1
  split at h
  · simp [response.Conflict, createSuccess, WriteEntity] at h
  rename_i h1'
  split at h
  · simp [response.InternalServerError, createSuccess, WriteEntity] at h
  rename_i h2
  split at h
  · simp [response.Conflict, createSuccess, WriteEntity] at h
  rename_i h2'
  split at h
  · simp [response.InternalServerError, createSuccess, WriteEntity] at h
  rename_i h3
  split at h
  · simp [response.Conflict, createSuccess, WriteEntity] at h
  rename_i h3'
  split at h
  · simp [response.InternalServerError, createSuccess, WriteEntity] at h
  rename_i h4
  simp only [h1, h1', h2, h2', h3, h3', h4, if_false]
  exact insert_store_of_ok _ _ _ h4

/-! ## CreateNetworkHandler: the claims -/

/-- C1, as stated, fails: on the empty store, with all three probes answered by the store and no
key of the input taken, an insert that the store fails leaves the record out and the handler
answers 500, not the success envelope. -/
theorem create_insert_failure_not_success :
    validIds [] ∧
    (CreateFaults.mk none none none (some (.other "connection closed"))).findDisplayName = none ∧
    (CreateFaults.mk none none none (some (.other "connection closed"))).findInterface = none ∧
    (CreateFaults.mk none none none (some (.other "connection closed"))).findBridgeName = none ∧
    ¬ (displayNameTaken [] inputA ∨ interfaceTaken [] inputA ∨ bridgeNameTaken [] inputA) ∧
    (CreateNetworkHandler (CreateFaults.mk none none none (some (.other "connection closed")))
      idA 100 [] (.ok inputA)).outcome =
        .wrote (response.InternalServerError (.other "connection closed")) ∧
    (CreateNetworkHandler (CreateFaults.mk none none none (some (.other "connection closed")))
      idA 100 [] (.ok inputA)).store = [] ∧
    (CreateNetworkHandler (CreateFaults.mk none none none (some (.other "connection closed")))
      idA 100 [] (.ok inputA)).outcome ≠ .wrote createSuccess := by
  decide

/-- C1 (amended).  For every store whose records carry 12-byte identifiers and every input record,
when the store answers the three probes: `CreateNetworkHandler` answers 409 and leaves the store
unchanged if and only if some stored record has the input's `displayName`, or both its `node` and
`interface`, or its `bridgeName`; in every other case it issues the insert of the record, and then
answers the success envelope with the record appended when the insert succeeds (no failure of the
store, identifier not yet stored), and answers 500 with the store unchanged when the insert
returns an error. -/
theorem create_conflict_iff_taken (f : CreateFaults) (newId : ObjectId) (now : Time)
    (store : Store) (network : Network) (hid : validIds store)
    (h1 : f.findDisplayName = none) (h2 : f.findInterface = none)
    (h3 : f.findBridgeName = none) :
    let res := CreateNetworkHandler f newId now store (.ok network)
    let taken := displayNameTaken store network ∨ interfaceTaken store network ∨
      bridgeNameTaken store network
    (((∃ r, res.outcome = .wrote r ∧ r.status = 409) ∧ res.store = store) ↔ taken) ∧
    (¬ taken →
      res.calls.getLast? = some (StoreCall.Insert (created network newId now)) ∧
      (f.insert = none → (∀ r ∈ store, r.ID ≠ newId) →
        res.outcome = .wrote createSuccess ∧ res.store = store ++ [created network newId now]) ∧
      (∀ err, (Insert f.insert store (created network newId now)).1 = some err →
        res.outcome = .wrote (response.InternalServerError err) ∧ res.store = store)) := by
  obtain ⟨f1, f2, f3, e⟩ := f
  simp only at h1 h2 h3
  subst h1 h2 h3
  intro res taken
  obtain ⟨c1, c2, c3, c4⟩ := create_cases e newId now store network hid
  have hnot : ¬ taken →
      res.calls.getLast? = some (StoreCall.Insert (created network newId now)) ∧
      res.store = (Insert e store (created network newId now)).2 ∧
      res.outcome = match (Insert e store (created network newId now)).1 with
        | some err => .wrote (response.InternalServerError err)
        | none => .wrote createSuccess := by
    intro hn
    exact c4 (fun t => hn (Or.inl t)) (fun t => hn (Or.inr (Or.inl t)))
      (fun t => hn (Or.inr (Or.inr t)))
  refine ⟨⟨?_, ?_⟩, ?_⟩
  · rintro ⟨⟨r, hr, hs⟩, -⟩
    by_contra hn
    obtain ⟨-, -, ho⟩ := hnot hn
    rw [ho] at hr
    cases hI : (Insert e store (created network newId now)).1 with
    | none =>
      rw [hI] at hr
      simp only [Outcome.wrote.injEq] at hr
      rw [← hr] at hs
      simp [createSuccess, WriteEntity] at hs
    | some err =>
      rw [hI] at hr
      simp only [Outcome.wrote.injEq] at hr
      rw [← hr] at hs
      simp [response.InternalServerError] at hs
  · intro ht
    by_cases t1 : displayNameTaken store network
    · exact ⟨⟨_, (c1 t1).1, rfl⟩, (c1 t1).2⟩
    · by_cases t2 : interfaceTaken store network
      · exact ⟨⟨_, (c2 t1 t2).1, rfl⟩, (c2 t1 t2).2⟩
      · have t3 : bridgeNameTaken store network := by
          rcases ht with h | h | h
          · exact absurd h t1
          · exact absurd h t2
          · exact h
        exact ⟨⟨_, (c3 t1 t2 t3).1, rfl⟩, (c3 t1 t2 t3).2⟩
  · intro hn
    obtain ⟨hc, hst, ho⟩ := hnot hn
    refine ⟨hc, ?_, ?_⟩
    · intro he hfresh
      subst he
      have hI := insert_ok store (created network newId now) (by simpa [created] using hfresh)
      rw [hI] at hst ho
      exact ⟨ho, hst⟩
    · intro err herr
      rw [herr] at ho
      exact ⟨ho, by rw [hst]; exact insert_store_of_error _ _ _ _ herr⟩

/-- The amended C1 at a concrete store and input: one stored record, an input sharing no key with
it, no failure of the store. -/
theorem create_conflict_iff_taken_witness :
    validIds [recA] ∧ CreateFaults.none.findDisplayName = none ∧
    CreateFaults.none.findInterface = none ∧ CreateFaults.none.findBridgeName = none ∧
    (CreateNetworkHandler CreateFaults.none idB 200 [recA] (.ok inputB)).outcome =
      .wrote createSuccess ∧
    (CreateNetworkHandler CreateFaults.none idB 200 [recA] (.ok inputB)).store =
      [recA] ++ [created inputB idB 200] :=
  ⟨by decide, rfl, rfl, rfl,
    ((create_conflict_iff_taken CreateFaults.none idB 200 [recA] inputB (by decide) rfl rfl
      rfl).2 (by decide)).2.1 rfl (by decide)⟩

/-- C3.  For every store whose records carry 12-byte identifiers and every input record, when the
store answers the three probes, `CreateNetworkHandler` reports one conflict, by the priority
`displayName` > (`node`, `interface`) > `bridgeName`: the `displayName` message if the
`displayName` is taken; otherwise the interface message if the pair is taken; otherwise the
`bridgeName` message if the `bridgeName` is taken. -/
theorem create_conflict_priority (f : CreateFaults) (newId : ObjectId) (now : Time)
    (store : Store) (network : Network) (hid : validIds store)
    (h1 : f.findDisplayName = none) (h2 : f.findInterface = none)
    (h3 : f.findBridgeName = none) :
    let res := CreateNetworkHandler f newId now store (.ok network)
    (displayNameTaken store network →
      res.outcome = .wrote (response.Conflict
        (.other ("displayName: " ++ network.DisplayName ++ " already existed")))) ∧
    (¬ displayNameTaken store network → interfaceTaken store network →
      res.outcome = .wrote (response.Conflict
        (.other ("interface " ++ network.Interface ++ " on the Node " ++ network.Node ++
          " has already be used")))) ∧
    (¬ displayNameTaken store network → ¬ interfaceTaken store network →
      bridgeNameTaken store network →
      res.outcome = .wrote (response.Conflict
        (.other ("bridgeName: " ++ network.BridgeName ++ " already existed")))) := by
  obtain ⟨f1, f2, f3, e⟩ := f
  simp only at h1 h2 h3
  subst h1 h2 h3
  intro res
  obtain ⟨c1, c2, c3, -⟩ := create_cases e newId now store network hid
  exact ⟨fun t1 => (c1 t1).1, fun t1 t2 => (c2 t1 t2).1, fun t1 t2 t3 => (c3 t1 t2 t3).1⟩

/-- C3 at a concrete input that conflicts on all three keys at once: the `displayName` conflict
is the one reported. -/
theorem create_conflict_priority_witness :
    validIds [recA, recB] ∧ CreateFaults.none.findDisplayName = none ∧
    CreateFaults.none.findInterface = none ∧ CreateFaults.none.findBridgeName = none ∧
    displayNameTaken [recA, recB] { inputB with Node := "n1", Interface := "eth0" } ∧
    interfaceTaken [recA, recB] { inputB with Node := "n1", Interface := "eth0" } ∧
    bridgeNameTaken [recA, recB] { inputB with Node := "n1", Interface := "eth0" } ∧
    (CreateNetworkHandler CreateFaults.none idB 300 [recA, recB]
      (.ok { inputB with Node := "n1", Interface := "eth0" })).outcome =
      .wrote (response.Conflict (.other "displayName: b already existed")) :=
  ⟨by decide, rfl, rfl, rfl, by decide, by decide, by decide,
    (create_conflict_priority CreateFaults.none idB 300 [recA, recB]
      { inputB with Node := "n1", Interface := "eth0" } (by decide) rfl rfl rfl).1 (by decide)⟩

/-- C7.  Whenever `CreateNetworkHandler` succeeds on an input record, the resulting store is the
prior store followed by exactly one new record, whose `id` is the generated identifier, whose
`createdAt` is the current time, and whose every other field is the input's. -/
theorem create_success_appends (f : CreateFaults) (newId : ObjectId) (now : Time)
    (store : Store) (network : Network)
    (h : (CreateNetworkHandler f newId now store (.ok network)).outcome = .wrote createSuccess) :
    ∃ doc : Network,
      (CreateNetworkHandler f newId now store (.ok network)).store = store ++ [doc] ∧
      doc.ID = newId ∧ doc.CreatedAt = some now ∧
      doc.DisplayName = network.DisplayName ∧ doc.Node = network.Node ∧
      doc.Interface = network.Interface ∧ doc.BridgeName = network.BridgeName ∧
      doc.Other = network.Other :=
  ⟨created network newId now, create_success_insert f newId now store network h,
    rfl, rfl, rfl, rfl, rfl, rfl, rfl⟩

/-- C7 at a concrete input whose client-supplied `id` and `createdAt` are overwritten. -/
theorem create_success_appends_witness :
    (CreateNetworkHandler CreateFaults.none idB 200 [recA]
      (.ok { inputB with ID := idA, CreatedAt := some 1 })).outcome = .wrote createSuccess ∧
    ∃ doc : Network,
      (CreateNetworkHandler CreateFaults.none idB 200 [recA]
        (.ok { inputB with ID := idA, CreatedAt := some 1 })).store = [recA] ++ [doc] ∧
      doc.ID = idB ∧ doc.CreatedAt = some 200 ∧
      doc.DisplayName = "b" ∧ doc.Node = "n2" ∧
      doc.Interface = "eth1" ∧ doc.BridgeName = "br1" ∧
      doc.Other = [] :=
  ⟨by decide, create_success_appends CreateFaults.none idB 200 [recA]
      { inputB with ID := idA, CreatedAt := some 1 } (by decide)⟩

/-! ## Lookup by identifier -/

theorem findOne_id_present (s : Store) (oid : ObjectId) (out : Network)
    (h : ∃ r ∈ s, r.ID = oid) :
    ∃ doc, doc ∈ s ∧ doc.ID = oid ∧ FindOne none s [("_id", .oid oid)] out = (none, doc) := by
  unfold FindOne
  cases hf : s.find? (BsonM.matches [("_id", .oid oid)]) with
  | none =>
    rw [List.find?_eq_none] at hf
    obtain ⟨r, hr, he⟩ := h
    have := hf r hr
    simp [matches_id, he] at this
  | some doc =>
    have hm := List.find?_some hf
    simp only [matches_id, decide_eq_true_eq] at hm
    exact ⟨doc, List.mem_of_find?_eq_some hf, hm, rfl⟩

theorem deepEqual_template (patch : Network) :
    DeepEqual patch { Network.zero with DisplayName := patch.DisplayName } = true ↔
      ¬ otherFieldSet patch := by
  obtain ⟨i, d, b, n, f, c, o⟩ := patch
  simp only [DeepEqual, Network.zero, decide_eq_true_eq, Network.mk.injEq, otherFieldSet]
  constructor
  · rintro ⟨h1, -, h2, h3, h4, h5, h6⟩
    simp [h1, h2, h3, h4, h5, h6]
  · intro h
    simp only [not_or, not_not] at h
    obtain ⟨h1, h2, h3, h4, h5, h6⟩ := h
    simp [h1, h2, h3, h4, h5, h6]

/-- C5.  For every stored record and every patch addressed to its identifier, when the lookup is
answered by the store: if any field of the patch other than `displayName` is non-zero,
`UpdateNetworkHandler` answers 400 with the message "only DisplayName can be changed" and the
store is unchanged; a patch whose every other field is zero is not answered with that message and
is handed to the store's update-by-id. -/
theorem update_shape_check (e : Option GoError) (store : Store) (id : String) (oid : ObjectId)
    (patch : Network) (hhex : ObjectIdHex id = some oid) (hstored : ∃ r ∈ store, r.ID = oid) :
    let res := UpdateNetworkHandler ⟨none, e⟩ store id (.ok patch)
    (otherFieldSet patch → res.outcome = .wrote onlyDisplayName ∧ res.store = store) ∧
    (¬ otherFieldSet patch → res.outcome ≠ .wrote onlyDisplayName ∧
      res.calls = [StoreCall.FindOne [("_id", .oid oid)], StoreCall.UpdateById oid patch]) := by
  intro res
  obtain ⟨doc, -, hdoc, hfind⟩ := findOne_id_present store oid Network.zero hstored
  constructor
  · intro hset
    have hne : DeepEqual patch { Network.zero with DisplayName := patch.DisplayName } = false := by
      rw [Bool.eq_false_iff]
      intro h
      exact (deepEqual_template patch).1 h hset
    simp [res, UpdateNetworkHandler, hhex, hfind, hne, onlyDisplayName]
  · intro hzero
    have heq := (deepEqual_template patch).2 hzero
    simp only [res, UpdateNetworkHandler, hhex, hfind, heq, hdoc]
    cases (UpdateById e store oid patch).1 with
    | none => simp [onlyDisplayName, response.BadRequest, WriteEntity]
    | some err =>
      by_cases hnf : err = GoError.ErrNotFound
      · simp [hnf, onlyDisplayName, response.BadRequest, response.NotFound]
      · simp [hnf, onlyDisplayName, response.BadRequest, response.InternalServerError]

/-- C5 at a concrete record and two patches: one that also sets `node`, one that sets only
`displayName`. -/
theorem update_shape_check_witness :
    ObjectIdHex hexA = some idA ∧ (∃ r ∈ [recA], r.ID = idA) ∧
    otherFieldSet { rename "z" with Node := "x" } ∧
    (UpdateNetworkHandler ⟨none, none⟩ [recA] hexA
      (.ok { rename "z" with Node := "x" })).outcome = .wrote onlyDisplayName ∧
    (UpdateNetworkHandler ⟨none, none⟩ [recA] hexA
      (.ok { rename "z" with Node := "x" })).store = [recA] :=
  ⟨by decide, by decide, by decide,
    (update_shape_check none [recA] hexA idA { rename "z" with Node := "x" } (by decide)
      (by decide)).1 (by decide)⟩

/-- The code at the failing input of C4: a successful update of the stored record `recA` with a
patch carrying only a `displayName` keeps the identifier and replaces every other field by the
patch's, so that `node`, `interface`, `bridgeName` and `createdAt` are zero afterwards. -/
theorem update_zeroes_other_fields :
    (UpdateNetworkHandler UpdateFaults.none [recA] hexA (.ok (rename "z"))).outcome =
      .wrote (WriteEntity [] (.network (rename "z"))) ∧
    (UpdateNetworkHandler UpdateFaults.none [recA] hexA (.ok (rename "z"))).store =
      [{ ID := idA, DisplayName := "z", BridgeName := "", Node := "", Interface := "",
         CreatedAt := none, Other := [] }] ∧
    recA.Node = "n1" ∧ recA.Interface = "eth0" ∧ recA.BridgeName = "br0" ∧
    recA.CreatedAt = some 100 := by
  decide

/-- The code at the failing input of C2: after two successful creations and one successful
update, two stored records share the `displayName` "b". -/
theorem update_breaks_uniqueness :
    (observations [] renameToTaken).getLast? =
      some [{ ID := idA, DisplayName := "b", BridgeName := "", Node := "", Interface := "",
              CreatedAt := none, Other := [] }, recB] ∧
    ¬ Unique [{ ID := idA, DisplayName := "b", BridgeName := "", Node := "", Interface := "",
                CreatedAt := none, Other := [] }, recB] ∧
    (UpdateNetworkHandler UpdateFaults.none [recA, recB] hexA (.ok (rename "b"))).outcome =
      .wrote (WriteEntity [] (.network (rename "b"))) := by
  decide

/-! ## Floating point: rounding -/

theorem roundHalfEven_le_of_le {x : ℚ} {m : ℤ} (h : x ≤ m) : roundHalfEven x ≤ m := by
  have hfl : ⌊x⌋ ≤ m := Int.floor_le_floor h |>.trans (by simp)
  have hle : (⌊x⌋ : ℚ) ≤ x := Int.floor_le x
  unfold roundHalfEven
  simp only
  have key : 0 < x - ⌊x⌋ → ⌊x⌋ + 1 ≤ m := by
    intro hr
    have : (⌊x⌋ : ℚ) < m := lt_of_lt_of_le (by linarith) h
    have : ⌊x⌋ < m := by exact_mod_cast this
    omega
  split_ifs with h1 h2 h3
  · exact hfl
  · exact key (by linarith)
  · exact hfl
  · exact key (by linarith)

theorem le_roundHalfEven_of_le {x : ℚ} {m : ℤ} (h : (m : ℚ) ≤ x) : m ≤ roundHalfEven x := by
  have hfl : m ≤ ⌊x⌋ := Int.le_floor.2 h
  unfold roundHalfEven
  simp only
  split_ifs <;> omega

theorem sub_half_le_roundHalfEven (x : ℚ) : x - 1 / 2 ≤ (roundHalfEven x : ℚ) := by
  have hlt : x < ⌊x⌋ + 1 := Int.lt_floor_add_one x
  unfold roundHalfEven
  simp only
  split_ifs with h1 h2 h3
  · linarith
  · push_cast; linarith
  · linarith
  · push_cast; linarith

/-- The spacing of the `float64` values around a positive rational. -/
theorem roundF64_pos_eq {q : ℚ} (hq : 0 < q) :
    roundF64 q = (roundHalfEven (q / 2 ^ (Int.log 2 q - 52)) : ℚ) * 2 ^ (Int.log 2 q - 52) := by
  unfold roundF64
  rw [if_neg hq.ne', abs_of_pos hq]

theorem ulp_pos (e : ℤ) : (0 : ℚ) < 2 ^ e := zpow_pos (by norm_num) e

theorem zpow_log_le {q : ℚ} (hq : 0 < q) : (2 : ℚ) ^ Int.log 2 q ≤ q := by
  have := Int.zpow_log_le_self (b := 2) (by norm_num) hq
  simpa using this

theorem log_lt_of_lt_zpow {q : ℚ} (hq : 0 < q) {n : ℤ} (h : q < 2 ^ n) : Int.log 2 q < n := by
  have := (Int.lt_zpow_iff_log_lt (b := 2) (by norm_num) hq (x := n)).1 (by simpa using h)
  exact this

theorem le_log_of_zpow_le {q : ℚ} (hq : 0 < q) {n : ℤ} (h : (2 : ℚ) ^ n ≤ q) :
    n ≤ Int.log 2 q := by
  have := (Int.zpow_le_iff_le_log (b := 2) (by norm_num) hq (x := n)).1 (by simpa using h)
  exact this

/-- Rounding never passes a value of the grid above. -/
theorem roundF64_le_of_le_grid {q : ℚ} (hq : 0 < q) (m : ℤ)
    (h : q ≤ m * 2 ^ (Int.log 2 q - 52)) : roundF64 q ≤ m * 2 ^ (Int.log 2 q - 52) := by
  rw [roundF64_pos_eq hq]
  have hu := ulp_pos (Int.log 2 q - 52)
  have : q / 2 ^ (Int.log 2 q - 52) ≤ m := by rwa [div_le_iff₀ hu]
  have := roundHalfEven_le_of_le this
  have : (roundHalfEven (q / 2 ^ (Int.log 2 q - 52)) : ℚ) ≤ m := by exact_mod_cast this
  exact mul_le_mul_of_nonneg_right this hu.le

/-- Rounding never passes a value of the grid below. -/
theorem le_roundF64_of_grid_le {q : ℚ} (hq : 0 < q) (m : ℤ)
    (h : (m : ℚ) * 2 ^ (Int.log 2 q - 52) ≤ q) : (m : ℚ) * 2 ^ (Int.log 2 q - 52) ≤ roundF64 q := by
  rw [roundF64_pos_eq hq]
  have hu := ulp_pos (Int.log 2 q - 52)
  have : (m : ℚ) ≤ q / 2 ^ (Int.log 2 q - 52) := by rwa [le_div_iff₀ hu]
  have := le_roundHalfEven_of_le this
  have : (m : ℚ) ≤ roundHalfEven (q / 2 ^ (Int.log 2 q - 52)) := by exact_mod_cast this
  exact mul_le_mul_of_nonneg_right this hu.le

/-- A value of the grid is its own rounding. -/
theorem roundF64_grid {q : ℚ} (hq : 0 < q) (m : ℤ) (h : q = m * 2 ^ (Int.log 2 q - 52)) :
    roundF64 q = q :=
  le_antisymm (le_of_le_of_eq (roundF64_le_of_le_grid hq m h.le) h.symm)
    (le_of_eq_of_le h (le_roundF64_of_grid_le hq m h.ge))

/-- The error of a rounding is at most half the spacing, which is at most `q / 2 ^ 53`. -/
theorem sub_le_roundF64 {q : ℚ} (hq : 0 < q) : q - q / 2 ^ 53 ≤ roundF64 q := by
  rw [roundF64_pos_eq hq]
  have hu := ulp_pos (Int.log 2 q - 52)
  have h1 := sub_half_le_roundHalfEven (q / 2 ^ (Int.log 2 q - 52))
  have h2 : q - 2 ^ (Int.log 2 q - 52) / 2 ≤
      (roundHalfEven (q / 2 ^ (Int.log 2 q - 52)) : ℚ) * 2 ^ (Int.log 2 q - 52) := by
    have := mul_le_mul_of_nonneg_right h1 hu.le
    have e : (q / 2 ^ (Int.log 2 q - 52) - 1 / 2) * 2 ^ (Int.log 2 q - 52) =
        q - 2 ^ (Int.log 2 q - 52) / 2 := by
      field_simp
      ring
    rw [e] at this
    exact this
  have h3 : (2 : ℚ) ^ (Int.log 2 q - 52) / 2 ≤ q / 2 ^ 53 := by
    have hl := zpow_log_le hq
    have e : (2 : ℚ) ^ (Int.log 2 q - 52) = 2 ^ Int.log 2 q / 2 ^ 52 := by
      rw [zpow_sub₀ (by norm_num)]; norm_num
    rw [e, div_div, div_le_div_iff₀ (by norm_num) (by norm_num)]
    nlinarith
  linarith

/-- Below `2 ^ 53` every integer lies on the grid. -/
theorem int_on_grid {q : ℚ} (hq : 0 < q) (h : q < 2 ^ 53) (k : ℤ) :
    ∃ m : ℤ, (k : ℚ) = m * 2 ^ (Int.log 2 q - 52) := by
  have hl : Int.log 2 q < 53 := log_lt_of_lt_zpow hq (by rw [zpow_ofNat]; exact h)
  refine ⟨k * 2 ^ (52 - Int.log 2 q).toNat, ?_⟩
  have hn : ((52 - Int.log 2 q).toNat : ℤ) = 52 - Int.log 2 q := Int.toNat_of_nonneg (by omega)
  have e : (2 : ℚ) ^ (52 - Int.log 2 q).toNat * 2 ^ (Int.log 2 q - 52) = 1 := by
    rw [← zpow_natCast, hn, ← zpow_add₀ (by norm_num)]
    simp
  push_cast
  rw [mul_assoc, e, mul_one]

/-- The rounded value of `x` has the ceiling `k + 1` when `x` itself lies in `(k, k + 1]`, at a
distance of more than `x / 2 ^ 53` above `k`. -/
theorem ceil_roundF64 {x : ℚ} (hx : 0 < x) (hlt : x < 2 ^ 53) (k : ℤ)
    (hk : (k : ℚ) < x - x / 2 ^ 53) (hle : x ≤ k + 1) : ⌈roundF64 x⌉ = k + 1 := by
  obtain ⟨m, hm⟩ := int_on_grid hx hlt (k + 1)
  have hup : roundF64 x ≤ ((k + 1 : ℤ) : ℚ) := by
    rw [hm]
    apply roundF64_le_of_le_grid hx
    rw [← hm]; push_cast; exact hle
  have hlo := sub_le_roundF64 hx
  rw [Int.ceil_eq_iff]
  constructor
  · push_cast; linarith
  · exact hup

/-! ## Floating point: the number of pages -/

/-- An integer below `2 ^ 53` converts to `float64` exactly. -/
theorem roundF64_int_exact {n : ℤ} (h0 : 0 ≤ n) (h : n < 2 ^ 53) : roundF64 (n : ℚ) = n := by
  rcases h0.eq_or_lt with h0 | h0
  · subst h0; simp [roundF64]
  · have hq : (0 : ℚ) < n := by exact_mod_cast h0
    have hlt : (n : ℚ) < 2 ^ 53 := by exact_mod_cast h
    obtain ⟨m, hm⟩ := int_on_grid hq hlt n
    exact roundF64_grid hq m hm

/-- An integer from `2 ^ 53` up to `2 ^ 63` converts to a `float64` no smaller than `2 ^ 53`. -/
theorem le_roundF64_int_big {n : ℤ} (h : 2 ^ 53 ≤ n) (h63 : n < 2 ^ 63) :
    (2 : ℚ) ^ 53 ≤ roundF64 (n : ℚ) := by
  have hq : (0 : ℚ) < n := by
    have : (0 : ℤ) < n := lt_of_lt_of_le (by norm_num) h
    exact_mod_cast this
  have hge : (2 : ℚ) ^ (53 : ℤ) ≤ n := by
    rw [zpow_ofNat]; exact_mod_cast h
  have hlt : (n : ℚ) < 2 ^ (63 : ℤ) := by
    rw [zpow_ofNat]; exact_mod_cast h63
  have hl1 : 53 ≤ Int.log 2 (n : ℚ) := le_log_of_zpow_le hq hge
  have hl2 : Int.log 2 (n : ℚ) < 63 := log_lt_of_lt_zpow hq hlt
  have hn : ((105 - Int.log 2 (n : ℚ)).toNat : ℤ) = 105 - Int.log 2 (n : ℚ) :=
    Int.toNat_of_nonneg (by omega)
  have e : (2 : ℚ) ^ (105 - Int.log 2 (n : ℚ)).toNat * 2 ^ (Int.log 2 (n : ℚ) - 52) = 2 ^ 53 := by
    rw [← zpow_natCast, hn, ← zpow_add₀ (by norm_num)]
    have : 105 - Int.log 2 (n : ℚ) + (Int.log 2 (n : ℚ) - 52) = 53 := by ring
    rw [this, zpow_ofNat]
  have key := le_roundF64_of_grid_le hq (2 ^ (105 - Int.log 2 (n : ℚ)).toNat)
    (by push_cast; rw [e]; rw [zpow_ofNat] at hge; exact hge)
  push_cast at key
  rw [e] at key
  exact key

/-- The computation `int(math.Ceil(float64(count) / float64(pageSize)))` is the ceiling of the
exact quotient for a count below `2 ^ 53` and a page size from 1 up to the largest `int`. -/
theorem totalPages_exact (c p : ℤ) (hc0 : 0 ≤ c) (hc : c < 2 ^ 53) (hp1 : 1 ≤ p)
    (hp : p < 2 ^ 63) :
    int (math.Ceil ((float64 c).div (float64 p))) = ⌈(c : ℚ) / (p : ℚ)⌉ := by
  have hpq : (1 : ℚ) ≤ p := by exact_mod_cast hp1
  have hcq : (c : ℚ) < 2 ^ 53 := by exact_mod_cast hc
  have hc0q : (0 : ℚ) ≤ c := by exact_mod_cast hc0
  have hfc : roundF64 (c : ℚ) = c := roundF64_int_exact hc0 hc
  -- the divisor as a float64: exact, or at least 2 ^ 53
  have hfp : roundF64 (p : ℚ) = p ∨ (2 ^ 53 ≤ p ∧ (2 : ℚ) ^ 53 ≤ roundF64 (p : ℚ)) := by
    by_cases hsmall : p < 2 ^ 53
    · exact Or.inl (roundF64_int_exact (by omega) hsmall)
    · exact Or.inr ⟨by omega, le_roundF64_int_big (by omega) hp⟩
  have hfp0 : roundF64 (p : ℚ) ≠ 0 := by
    rcases hfp with h | h
    · rw [h]; linarith
    · have : (0 : ℚ) < 2 ^ 53 := by norm_num
      linarith [h.2]
  have hfinal : ∀ z : ℤ, 0 ≤ z → z ≤ c →
      int (.finite ((z : ℤ) : ℚ)) = z := by
    intro z hz hzc
    simp only [int]
    have hz' : (0 : ℚ) ≤ (z : ℚ) := by exact_mod_cast hz
    rw [if_pos hz', Int.floor_intCast, if_pos]
    constructor <;> omega
  simp only [float64, Float64.div, if_neg hfp0, math.Ceil, hfc]
  rcases hc0.eq_or_lt with hz | hpos
  · subst hz
    simp [roundF64, int]
  have hposq : (0 : ℚ) < c := by exact_mod_cast hpos
  -- the exact quotient and its ceiling
  have hx0 : (0 : ℚ) < (c : ℚ) / p := div_pos hposq (by linarith)
  have hceil_pos : 0 < ⌈(c : ℚ) / (p : ℚ)⌉ := Int.ceil_pos.2 hx0
  have hceil_le : ⌈(c : ℚ) / (p : ℚ)⌉ ≤ c := by
    rw [Int.ceil_le]
    rw [div_le_iff₀ (by linarith)]
    nlinarith
  rcases hfp with hexact | ⟨hbig, hbigq⟩
  · rw [hexact]
    have hxlt : (c : ℚ) / p < 2 ^ 53 := by
      rw [div_lt_iff₀ (by linarith)]
      nlinarith
    have hk1 : ((⌈(c : ℚ) / (p : ℚ)⌉ - 1 : ℤ) : ℚ) < (c : ℚ) / p := by
      have := Int.ceil_lt_add_one ((c : ℚ) / p)
      push_cast; linarith
    -- the distance of the quotient above the integer below is at least 1 / p
    have hgap : ((⌈(c : ℚ) / (p : ℚ)⌉ - 1 : ℤ) : ℚ) + 1 / p ≤ (c : ℚ) / p := by
      have h1 : ((⌈(c : ℚ) / (p : ℚ)⌉ - 1 : ℤ) : ℚ) * p < c := by
        rwa [lt_div_iff₀ (by linarith)] at hk1
      have h2 : (⌈(c : ℚ) / (p : ℚ)⌉ - 1) * p < c := by exact_mod_cast h1
      have h3 : (⌈(c : ℚ) / (p : ℚ)⌉ - 1) * p + 1 ≤ c := by omega
      have h4 : ((⌈(c : ℚ) / (p : ℚ)⌉ - 1 : ℤ) : ℚ) * p + 1 ≤ c := by exact_mod_cast h3
      have hp0 : (0 : ℚ) < p := by linarith
      have e : ((⌈(c : ℚ) / (p : ℚ)⌉ - 1 : ℤ) : ℚ) + 1 / p =
          (((⌈(c : ℚ) / (p : ℚ)⌉ - 1 : ℤ) : ℚ) * p + 1) / p := by
        field_simp
      rw [e]
      exact div_le_div_of_nonneg_right h4 hp0.le
    have hsmallerr : (c : ℚ) / p / 2 ^ 53 < 1 / p := by
      rw [div_div, div_lt_div_iff₀ (by positivity) (by linarith)]
      nlinarith
    have key := ceil_roundF64 hx0 hxlt (⌈(c : ℚ) / (p : ℚ)⌉ - 1) (by linarith)
      (by push_cast; linarith [Int.le_ceil ((c : ℚ) / p)])
    rw [key]
    have := hfinal (⌈(c : ℚ) / (p : ℚ)⌉ - 1 + 1) (by omega) (by omega)
    rw [this]; ring
  · -- a divisor above every count: the quotient lies in (0, 1)
    have hx0' : (0 : ℚ) < (c : ℚ) / roundF64 (p : ℚ) := div_pos hposq (by linarith [hbigq, show (0:ℚ) < 2 ^ 53 by norm_num])
    have hx1 : (c : ℚ) / roundF64 (p : ℚ) < 1 := by
      rw [div_lt_one (by linarith [hbigq, show (0:ℚ) < 2 ^ 53 by norm_num])]
      linarith
    have key := ceil_roundF64 hx0' (by linarith [show (1:ℚ) < 2 ^ 53 by norm_num]) 0
      (by
        have : (c : ℚ) / roundF64 (p : ℚ) / 2 ^ 53 < (c : ℚ) / roundF64 (p : ℚ) := by
          apply div_lt_self hx0'
          norm_num
        push_cast; linarith)
      (by push_cast; linarith)
    rw [key]
    have hone : ⌈(c : ℚ) / (p : ℚ)⌉ = 1 := by
      rw [Int.ceil_eq_iff]
      constructor
      · push_cast; linarith
      · push_cast
        rw [div_le_one (by linarith)]
        have : (c : ℚ) < 2 ^ 53 := hcq
        have : ((2 : ℤ) ^ 53 : ℚ) ≤ p := by exact_mod_cast hbig
        push_cast at this
        linarith
    rw [hone]
    have := hfinal (0 + 1) (by omega) (by omega)
    rw [this]; rfl

/-! ## Sorting by identifier and paging -/

theorem wrapInt64_of_range {x : ℤ} (h1 : -2 ^ 63 ≤ x) (h2 : x < 2 ^ 63) : wrapInt64 x = x := by
  unfold wrapInt64
  norm_num at h1 h2 ⊢
  omega

/-! ## ListNetworkHandler -/

/-- What `ListNetworkHandler` does for a page number and page size from 1 up, when the skip
`(page - 1) * pageSize` is an `int` and the page query is answered by the store. -/
theorem list_page (e : Option GoError) (store : Store) (page pageSize : ℤ) (hp : 1 ≤ page)
    (hps : 1 ≤ pageSize) (hskip : (page - 1) * pageSize < 2 ^ 63) :
    ListNetworkHandler ⟨none, e⟩ store (.integer page) (.integer pageSize) =
      ⟨.wrote (WriteEntity
          [("X-Total-Count", Itoa (Count e store).1),
           ("X-Total-Pages",
              Itoa (int (math.Ceil ((float64 (Count e store).1).div (float64 pageSize)))))]
          (.networks (((sortById store).drop ((page.toNat - 1) * pageSize.toNat)).take
            pageSize.toNat))),
        store,
        [StoreCall.FindSortSkipLimitAll [] "_id" ((page - 1) * pageSize) pageSize,
          StoreCall.Count []]⟩ := by
  have hp1 : page - 1 < 2 ^ 63 := by nlinarith
  have hw1 : wrapInt64 (page - 1) = page - 1 := wrapInt64_of_range (by norm_num; omega) hp1
  have hnn : 0 ≤ (page - 1) * pageSize := mul_nonneg (by omega) (by omega)
  have hw2 : wrapInt64 ((page - 1) * pageSize) = (page - 1) * pageSize :=
    wrapInt64_of_range (by norm_num; omega) hskip
  have hnat : ((page - 1) * pageSize).toNat = (page.toNat - 1) * pageSize.toNat := by
    have h1 : (page - 1).toNat = page.toNat - 1 := by omega
    have h2 : (((page - 1) * pageSize).toNat : ℤ) = (((page - 1).toNat * pageSize.toNat : ℕ) : ℤ) := by
      push_cast
      rw [Int.toNat_of_nonneg hnn, Int.toNat_of_nonneg (by omega : 0 ≤ page - 1),
        Int.toNat_of_nonneg (by omega : 0 ≤ pageSize)]
    rw [← h1]
    exact_mod_cast h2
  have hfind : FindSortSkipLimitAll none store ((page - 1) * pageSize) pageSize [] =
      (none, ((sortById store).drop ((page.toNat - 1) * pageSize.toNat)).take pageSize.toNat) := by
    unfold FindSortSkipLimitAll
    have hl : ¬ pageSize = 0 := by omega
    have hna : pageSize.natAbs = pageSize.toNat := by omega
    simp only [if_neg (not_lt.2 hnn), if_neg hl, hnat, hna]
  simp only [ListNetworkHandler, query.Int, hw1, hw2, hfind]
  rfl

/-- The ceiling of `count / pageSize` as a number of pages: it is 0 for no record, and otherwise
the one number of pages whose last page is not empty and which holds every record. -/
theorem ceil_pages (count pageSize : ℤ) (hc : 0 ≤ count) (hps : 1 ≤ pageSize) :
    0 ≤ ⌈(count : ℚ) / (pageSize : ℚ)⌉ ∧
    (count = 0 → ⌈(count : ℚ) / (pageSize : ℚ)⌉ = 0) ∧
    (0 < count → (⌈(count : ℚ) / (pageSize : ℚ)⌉ - 1) * pageSize < count) ∧
    count ≤ ⌈(count : ℚ) / (pageSize : ℚ)⌉ * pageSize := by
  have hpq : (0 : ℚ) < pageSize := by exact_mod_cast (by omega : (0 : ℤ) < pageSize)
  have hcq : (0 : ℚ) ≤ count := by exact_mod_cast hc
  have hle := Int.le_ceil ((count : ℚ) / pageSize)
  have hlt := Int.ceil_lt_add_one ((count : ℚ) / pageSize)
  refine ⟨Int.ceil_nonneg (div_nonneg hcq hpq.le), ?_, ?_, ?_⟩
  · intro h0; subst h0; simp
  · intro _
    have h1 : ((⌈(count : ℚ) / (pageSize : ℚ)⌉ : ℚ) - 1) * pageSize < count := by
      have : (⌈(count : ℚ) / (pageSize : ℚ)⌉ : ℚ) - 1 < (count : ℚ) / pageSize := by linarith
      rwa [lt_div_iff₀ hpq] at this
    exact_mod_cast h1
  · have h1 : (count : ℚ) ≤ (⌈(count : ℚ) / (pageSize : ℚ)⌉ : ℚ) * pageSize := by
      rwa [div_le_iff₀ hpq] at hle
    exact_mod_cast h1

/-- C10 (amended).  For every response of `ListNetworkHandler` with status 200, read with a page
size from 1 up to the largest `int`, on a store of fewer than `2 ^ 53` records whose count
succeeds: the header `X-Total-Count` is the decimal number of stored records and the header
`X-Total-Pages` is the decimal value of the ceiling of count / pageSize, which is 0 for count 0
and satisfies `(totalPages - 1) * pageSize < count ≤ totalPages * pageSize` for count > 0. -/
theorem list_total_headers (f : ListFaults) (store : Store) (pageParam pageSizeParam : QueryValue)
    (pageSize : ℤ) (r : Response)
    (hq : query.Int pageSizeParam 10 = (pageSize, none))
    (hps : 1 ≤ pageSize) (h63 : pageSize < 2 ^ 63) (hlen : (store.length : ℤ) < 2 ^ 53)
    (hcount : f.count = none)
    (hok : (ListNetworkHandler f store pageParam pageSizeParam).outcome = .wrote r)
    (h200 : r.status = 200) :
    r.headers = [("X-Total-Count", Itoa store.length),
      ("X-Total-Pages", Itoa ⌈((store.length : ℤ) : ℚ) / (pageSize : ℚ)⌉)] ∧
    (store.length = 0 → ⌈((store.length : ℤ) : ℚ) / (pageSize : ℚ)⌉ = 0) ∧
    (0 < store.length →
      (⌈((store.length : ℤ) : ℚ) / (pageSize : ℚ)⌉ - 1) * pageSize < store.length ∧
      (store.length : ℤ) ≤ ⌈((store.length : ℤ) : ℚ) / (pageSize : ℚ)⌉ * pageSize) := by
  obtain ⟨c0, c1, c2, c3⟩ := ceil_pages store.length pageSize (by omega) hps
  refine ⟨?_, fun h => c1 (by omega), fun h => ⟨c2 (by omega), c3⟩⟩
  obtain ⟨fa, fc⟩ := f
  simp only at hcount
  subst hcount
  have htp := totalPages_exact store.length pageSize (by omega) hlen hps h63
  unfold ListNetworkHandler at hok
  simp only [hq] at hok
  split at hok
  · simp only [Outcome.wrote.injEq] at hok
    rw [← hok] at h200; simp [response.BadRequest] at h200
  split at hok
  · split at hok
    · simp only [Outcome.wrote.injEq] at hok
      rw [← hok] at h200; simp [response.NotFound] at h200
    · simp only [Outcome.wrote.injEq] at hok
      rw [← hok] at h200; simp [response.InternalServerError] at h200
  simp only [Outcome.wrote.injEq, Count, htp] at hok
  rw [← hok]
  rfl

/-- The amended C10 at the store of two records read with page size 1. -/
theorem list_total_headers_witness :
    query.Int (.integer 1) 10 = (1, none) ∧ ((1 : ℤ) ≤ 1) ∧ ((1 : ℤ) < 2 ^ 63) ∧
    ((([recA, recB] : Store).length : ℤ) < 2 ^ 53) ∧ ListFaults.none.count = none ∧
    (∃ r, (ListNetworkHandler ListFaults.none [recA, recB] (.integer 2) (.integer 1)).outcome =
        .wrote r ∧ r.status = 200 ∧
      r.headers = [("X-Total-Count", Itoa ([recA, recB] : Store).length),
        ("X-Total-Pages",
          Itoa ⌈((([recA, recB] : Store).length : ℤ) : ℚ) / ((1 : ℤ) : ℚ)⌉)]) :=
  ⟨rfl, by decide, by decide, by decide, rfl,
    ⟨_, congrArg Result.outcome
        (list_page none [recA, recB] 2 1 (by decide) (by decide) (by decide)), rfl,
      (list_total_headers ListFaults.none [recA, recB] (.integer 2) (.integer 1) 1 _ rfl
        (by decide) (by decide) (by decide) rfl
        (congrArg Result.outcome
          (list_page none [recA, recB] 2 1 (by decide) (by decide) (by decide))) rfl).1⟩⟩

/-- The store of two records sorts by identifier. -/
theorem sortById_example : sortById [recB, recA] = [recA, recB] := by decide

/-- C9, as stated, fails: a request with `page=0` is not answered 400, and the page query is
issued against the store, with the skip `(0 - 1) * 10`. -/
theorem list_page_zero_not_rejected :
    (ListNetworkHandler ListFaults.none [recA] (.integer 0) .absent).outcome.status ≠ some 400 ∧
    (ListNetworkHandler ListFaults.none [recA] (.integer 0) .absent).calls =
      [StoreCall.FindSortSkipLimitAll [] "_id" (-10) 10] := by
  decide

/-- C9 (amended).  `ListNetworkHandler` answers 400 and issues no store call when the `page` or
the `page_size` parameter is not an integer.  When both are integers or absent, whatever their
sign, the request is not answered 400 and the first store call is the page query with the skip
`(page - 1) * pageSize` (in `int` arithmetic) and the limit `pageSize`. -/
theorem list_bad_request_iff_malformed (f : ListFaults) (store : Store)
    (pageParam pageSizeParam : QueryValue) :
    (((∃ e, pageParam = .malformed e) ∨ (∃ e, pageSizeParam = .malformed e)) →
      (ListNetworkHandler f store pageParam pageSizeParam).outcome.status = some 400 ∧
      (ListNetworkHandler f store pageParam pageSizeParam).calls = []) ∧
    (∀ page pageSize : ℤ, query.Int pageParam 1 = (page, none) →
      query.Int pageSizeParam 10 = (pageSize, none) →
      (ListNetworkHandler f store pageParam pageSizeParam).outcome.status ≠ some 400 ∧
      (ListNetworkHandler f store pageParam pageSizeParam).calls.head? =
        some (StoreCall.FindSortSkipLimitAll [] "_id"
          (wrapInt64 (wrapInt64 (page - 1) * pageSize)) pageSize)) := by
  constructor
  · rintro (⟨e, rfl⟩ | ⟨e, rfl⟩)
    · simp [ListNetworkHandler, query.Int, Outcome.status, response.BadRequest]
    · cases pageParam <;>
        simp [ListNetworkHandler, query.Int, Outcome.status, response.BadRequest]
  · intro page pageSize h1 h2
    unfold ListNetworkHandler
    simp only [h1, h2]
    split
    · split <;> simp [Outcome.status, response.NotFound, response.InternalServerError]
    · simp [Outcome.status, WriteEntity]

/-- The amended C9 at two requests: `page=x` is answered 400 without a store call, `page=0` is
not answered 400 and the page query is issued. -/
theorem list_bad_request_iff_malformed_witness :
    (ListNetworkHandler ListFaults.none [recA] (.malformed (.other "strconv.Atoi: parsing x"))
      .absent).outcome.status = some 400 ∧
    (ListNetworkHandler ListFaults.none [recA] (.malformed (.other "strconv.Atoi: parsing x"))
      .absent).calls = [] ∧
    (ListNetworkHandler ListFaults.none [recA] (.integer 0) .absent).calls.head? =
      some (StoreCall.FindSortSkipLimitAll [] "_id"
        (wrapInt64 (wrapInt64 (0 - 1) * 10)) 10) :=
  ⟨((list_bad_request_iff_malformed ListFaults.none [recA]
      (.malformed (.other "strconv.Atoi: parsing x")) .absent).1 (Or.inl ⟨_, rfl⟩)).1,
   ((list_bad_request_iff_malformed ListFaults.none [recA]
      (.malformed (.other "strconv.Atoi: parsing x")) .absent).1 (Or.inl ⟨_, rfl⟩)).2,
   ((list_bad_request_iff_malformed ListFaults.none [recA] (.integer 0) .absent).2 0 10
      rfl rfl).2⟩

/-! ## Uniqueness of the keys across calls -/

/-- The creation path keeps the three keys unique: the probes of `CreateNetworkHandler` let a
record in only when it shares no key with a stored one. -/
theorem create_preserves_unique (f : CreateFaults) (newId : ObjectId) (now : Time)
    (store : Store) (network : Network) (hid : validIds store)
    (h1 : f.findDisplayName = none) (h2 : f.findInterface = none)
    (h3 : f.findBridgeName = none) (hu : Unique store) :
    Unique (CreateNetworkHandler f newId now store (.ok network)).store := by
  obtain ⟨f1, f2, f3, e⟩ := f
  simp only at h1 h2 h3
  subst h1 h2 h3
  obtain ⟨c1, c2, c3, c4⟩ := create_cases e newId now store network hid
  by_cases t1 : displayNameTaken store network
  · rw [(c1 t1).2]; exact hu
  by_cases t2 : interfaceTaken store network
  · rw [(c2 t1 t2).2]; exact hu
  by_cases t3 : bridgeNameTaken store network
  · rw [(c3 t1 t2 t3).2]; exact hu
  obtain ⟨-, hst, -⟩ := c4 t1 t2 t3
  rw [hst]
  cases hI : (Insert e store (created network newId now)).1 with
  | some err => rw [insert_store_of_error _ _ _ _ hI]; exact hu
  | none =>
    rw [insert_store_of_ok _ _ _ hI]
    unfold Unique
    rw [List.pairwise_append]
    refine ⟨hu, List.pairwise_singleton _ _, ?_⟩
    intro a ha b hb
    rw [List.mem_singleton] at hb
    subst hb
    refine ⟨fun h => t1 ⟨a, ha, h⟩, fun h => t3 ⟨a, ha, h⟩, fun h => t2 ⟨a, ha, h⟩⟩

theorem removeFirst_sublist (p : Network → Bool) (s : Store) : (removeFirst p s).Sublist s := by
  induction s with
  | nil => exact List.Sublist.refl _
  | cons d ds ih =>
    unfold removeFirst
    split
    · exact List.sublist_cons_self d ds
    · exact ih.cons₂ d

/-- The deletion path keeps the three keys unique: it only ever removes a record. -/
theorem delete_preserves_unique (f : DeleteFaults) (store : Store) (id : String)
    (hu : Unique store) : Unique (DeleteNetworkHandler f store id).store := by
  have hsub : ((DeleteNetworkHandler f store id).store).Sublist store := by
    unfold DeleteNetworkHandler
    split
    · exact List.Sublist.refl _
    · simp only
      split
      · split <;> exact List.Sublist.refl _
      · have hr : ∀ (e : Option GoError) (i : ObjectId), ((Remove e store i).2).Sublist store := by
          intro e i
          unfold Remove
          cases e with
          | some e0 => exact List.Sublist.refl _
          | none =>
            simp only
            split
            · exact removeFirst_sublist _ _
            · exact List.Sublist.refl _
        split <;> exact hr _ _
  exact List.Pairwise.sublist hsub hu

/-- What a successful update writes: for a stored record and a patch that passes the shape
check, the record under the identifier becomes the patch with that identifier, so every field
but `id` and `displayName` is the zero value afterwards. -/
theorem update_replaces_document (store : Store) (id : String) (oid : ObjectId)
    (patch : Network) (hhex : ObjectIdHex id = some oid) (hstored : ∃ r ∈ store, r.ID = oid)
    (hzero : ¬ otherFieldSet patch) :
    (UpdateNetworkHandler UpdateFaults.none store id (.ok patch)).outcome =
      .wrote (WriteEntity [] (.network patch)) ∧
    (UpdateNetworkHandler UpdateFaults.none store id (.ok patch)).store =
      replaceFirst oid { Network.zero with ID := oid, DisplayName := patch.DisplayName }
        store := by
  obtain ⟨doc, -, hdoc, hfind⟩ := findOne_id_present store oid Network.zero hstored
  have heq := (deepEqual_template patch).2 hzero
  have hany : (store.any fun d => decide (d.ID = oid)) = true := by
    simpa [List.any_eq_true] using hstored
  have hpatch : ({ patch with ID := oid } : Network) =
      { Network.zero with ID := oid, DisplayName := patch.DisplayName } := by
    simp only [otherFieldSet, not_or, not_not] at hzero
    obtain ⟨-, h2, h3, h4, h5, h6⟩ := hzero
    simp [Network.zero, h2, h3, h4, h5, h6]
  have hid : patch.ID = [] := by
    simp only [otherFieldSet, not_or, not_not] at hzero
    exact hzero.1
  have hupd : UpdateById none store oid patch = (none, replaceFirst oid
      { Network.zero with ID := oid, DisplayName := patch.DisplayName } store) := by
    unfold UpdateById
    simp only [hany, if_true, hid, true_or, hpatch]
  simp [UpdateNetworkHandler, UpdateFaults.none, hhex, hfind, heq, hdoc, hupd]

/-! ## The page count beyond the exact range of `float64` -/

theorem bigStore_length : bigStore.length = 9007199254740993 := by
  simp [bigStore]

theorem itoa_examples : Itoa 9007199254740993 = "9007199254740993" ∧
    Itoa 9007199254740992 = "9007199254740992" := by
  decide

/-- The conversion `float64(2 ^ 53 + 1)` rounds to `2 ^ 53`. -/
theorem roundF64_two_pow_53_succ : roundF64 9007199254740993 = 9007199254740992 := by
  have hq : (0 : ℚ) < 9007199254740993 := by norm_num
  have hlog : Int.log 2 (9007199254740993 : ℚ) = 53 := by
    apply le_antisymm
    · have := log_lt_of_lt_zpow hq (n := 54) (by norm_num)
      omega
    · exact le_log_of_zpow_le hq (by norm_num)
  rw [roundF64_pos_eq hq, hlog]
  have hfl : ⌊(9007199254740993 : ℚ) / 2 ^ ((53 : ℤ) - 52)⌋ = 4503599627370496 := by
    rw [Int.floor_eq_iff]
    norm_num
  unfold roundHalfEven
  simp only [hfl]
  norm_num

theorem totalPages_two_pow_53_succ :
    int (math.Ceil ((float64 9007199254740993).div (float64 1))) = 9007199254740992 := by
  have h1 : roundF64 ((1 : ℤ) : ℚ) = ((1 : ℤ) : ℚ) := roundF64_int_exact (by norm_num) (by norm_num)
  have h2 : roundF64 (((9007199254740992 : ℤ) : ℚ)) = ((9007199254740992 : ℤ) : ℚ) := by
    have hq : (0 : ℚ) < ((9007199254740992 : ℤ) : ℚ) := by norm_num
    have hlog : Int.log 2 (((9007199254740992 : ℤ) : ℚ)) = 53 := by
      apply le_antisymm
      · have := log_lt_of_lt_zpow hq (n := 54) (by norm_num)
        omega
      · exact le_log_of_zpow_le hq (by norm_num)
    apply roundF64_grid hq 4503599627370496
    rw [hlog]
    norm_num
  simp only [float64]
  push_cast at h1 h2 ⊢
  rw [roundF64_two_pow_53_succ, h1]
  simp only [Float64.div, one_ne_zero, if_false, div_one, h2, math.Ceil, int]
  norm_num

theorem bytesOfNat_length (n i : Nat) : (bytesOfNat n i).length = n := by
  induction n generalizing i with
  | zero => rfl
  | succ n ih => simp [bytesOfNat, ih]

theorem bytesOfNat_value (n i : Nat) :
    (bytesOfNat n i).foldl (fun acc d => acc * 256 + d) 0 = i % 256 ^ n := by
  induction n generalizing i with
  | zero => simp [bytesOfNat, Nat.mod_one]
  | succ n ih =>
    simp only [bytesOfNat, List.foldl_append, List.foldl_cons, List.foldl_nil, ih]
    rw [pow_succ', Nat.mod_mul]
    ring

theorem bigStore_validIds : validIds bigStore := by
  intro r hr
  simp only [bigStore, List.mem_map] at hr
  obtain ⟨i, -, rfl⟩ := hr
  exact bytesOfNat_length 12 i

theorem bigStore_uniqueIds : uniqueIds bigStore := by
  unfold uniqueIds bigStore
  rw [List.map_map]
  apply List.Nodup.map_on _ (List.nodup_range _)
  intro i hi j hj h
  rw [List.mem_range] at hi hj
  have h2 : bytesOfNat 12 i = bytesOfNat 12 j := h
  have h3 := congrArg (fun l => List.foldl (fun acc d => acc * 256 + d) 0 l) h2
  simp only [bytesOfNat_value] at h3
  have hi' : i < 256 ^ 12 := lt_trans hi (by norm_num)
  have hj' : j < 256 ^ 12 := lt_trans hj (by norm_num)
  rwa [Nat.mod_eq_of_lt hi', Nat.mod_eq_of_lt hj'] at h3

theorem list_page_bigStore (page : ℤ) (hp : 1 ≤ page) (hle : page ≤ 9007199254740993) :
    ListNetworkHandler ListFaults.none bigStore (.integer page) (.integer 1) =
      ⟨.wrote (WriteEntity
          [("X-Total-Count", "9007199254740993"), ("X-Total-Pages", "9007199254740992")]
          (.networks (((sortById bigStore).drop (page.toNat - 1)).take 1))),
        bigStore,
        [StoreCall.FindSortSkipLimitAll [] "_id" ((page - 1) * 1) 1, StoreCall.Count []]⟩ := by
  have h := list_page none bigStore page 1 hp (by norm_num) (by norm_num; omega)
  simp only [Count, bigStore_length, Nat.cast_ofNat, totalPages_two_pow_53_succ,
    itoa_examples.1, itoa_examples.2] at h
  simpa using h

/-- C10, as stated, fails: a store of `2 ^ 53 + 1` records read with page size 1 is answered with
status 200 and the count 9007199254740993, but with the total pages 9007199254740992, which is
not the ceiling of count / pageSize: `float64` holds no odd number above `2 ^ 53`. -/
theorem list_total_pages_float_inexact :
    validIds bigStore ∧ uniqueIds bigStore ∧
    (ListNetworkHandler ListFaults.none bigStore (.integer 1) (.integer 1)).outcome.status =
      some 200 ∧
    (ListNetworkHandler ListFaults.none bigStore (.integer 1) (.integer 1)).outcome.header
      "X-Total-Count" = some "9007199254740993" ∧
    (ListNetworkHandler ListFaults.none bigStore (.integer 1) (.integer 1)).outcome.header
      "X-Total-Pages" = some "9007199254740992" ∧
    ⌈((bigStore.length : ℤ) : ℚ) / ((1 : ℤ) : ℚ)⌉ = 9007199254740993 := by
  refine ⟨bigStore_validIds, bigStore_uniqueIds, ?_⟩
  rw [list_page_bigStore 1 (by norm_num) (by norm_num), bigStore_length]
  refine ⟨rfl, by decide, by decide, ?_⟩
  norm_num

end Vortex
